import Mathlib

/-!
Verification of the user-level thread scheduler and binary semaphore
(`binsem.c` / `ut.c`) against its natural-language specification.

The C sources are shallowly embedded: the process-wide static variables of
the threads library become a `UTState` record threaded explicitly through
each operation; heap allocation results (`malloc`) are supplied as
parameters (`Option` = success/failure, with the indeterminate initial
contents of an allocated region given explicitly, since `malloc` does not
zero memory); externally visible side effects (`alarm`, `raise`,
`swapcontext`, `free`, chaining to the old `SIGINT` handler) are recorded
as an `Eff` trace; paths with no normal return (process exit, undefined
behaviour such as dereferencing a NULL table, out-of-bounds access, or
`% 0`) are modelled as `none`.  The `unsigned long` virtual-time
counters are 64-bit and wrap around: every increment the code performs
on them is taken modulo `ULONG_MOD = 2 ^ 64`.
-/

/-- Modelled from the spec: `ut.h` is not under `src/`; the spec says `init`
and `spawn` return negative sentinel values distinguishing "table full"
from "system/resource error", so two distinct negative constants are used. -/
def TAB_FULL : Int := -1

/-- Modelled from the spec: the distinct "system/resource error" sentinel
from the missing `ut.h`/`binsem.h` headers. -/
def SYS_ERR : Int := -2

/-- `#define QUANTUM 1` in `ut.c`. -/
def QUANTUM : Nat := 1

/-- `#define INTERVAL_MICRO 100` in `ut.c`: the virtual-time tick granularity. -/
def INTERVAL_MICRO : Nat := 100

/-- The modulus of the `unsigned long` virtual-time counters (`vtime` is
`static unsigned long`, and the per-slot counter is read back through the
`unsigned long ut_get_vtime`): 64-bit, so `vtime += INTERVAL_MICRO`
wraps modulo `2 ^ 64`. -/
def ULONG_MOD : Nat := 2 ^ 64

/-- One thread descriptor (`ut_slot_t`): the fields of the slot that the
core reads or writes.  `stackSS` is the `uc.uc_stack.ss_sp` pointer value
(an abstract address), `linked` records that `uc.uc_link` was pointed at
`uc_out` by `ut_spawn_thread`.  A slot fresh out of `malloc` holds
arbitrary (indeterminate) values in all fields. -/
structure Slot where
  stackSS : Int
  /-- Embeds an `unsigned long`: the code's increments wrap modulo `ULONG_MOD`. -/
  vtime : Nat
  func : Int
  arg : Int
  linked : Bool
deriving DecidableEq, Repr

/-- The `malloc`-ed threads table: its address (`ptr`, the value later
passed to `free`) and the slot array it points to. -/
structure TableMem where
  ptr : Int
  slots : List Slot
deriving DecidableEq, Repr

/-- The static variables of `ut.c`: `threads_table` (NULL = `none`),
`threads_table_size`, `next_position`, `curr_thread`, `vtime`. -/
structure UTState where
  threads_table : Option TableMem
  threads_table_size : Nat
  next_position : Nat
  curr_thread : Nat
  /-- Embeds a `static unsigned long`: the code's increments wrap modulo `ULONG_MOD`. -/
  vtime : Nat
deriving DecidableEq, Repr

/-- The state of the static variables at program start: statics are
zero-initialized, so the table pointer is NULL and all counters are 0. -/
def initialState : UTState :=
  { threads_table := none, threads_table_size := 0, next_position := 0
    curr_thread := 0, vtime := 0 }

/-- Externally visible side effects of the library, in program order:
`alarm(QUANTUM)`, `alarm(0)`, `swapcontext` between two table slots,
invoking the previously installed `SIGINT` handler, `free(p)`, and
`raise(SIGALRM)` from the semaphore's contended path. -/
inductive Eff where
  | setAlarm (n : Nat)
  | cancelAlarm
  | swapCtx (fromIdx toIdx : Nat)
  | callOldHandler
  | freeMem (p : Int)
  | raiseSig
deriving DecidableEq, Repr

/-! ## Binary semaphore (`binsem.c`) -/

/-- Modelled from the spec: `xchg` is declared in the missing `binsem.h`
as an atomic exchange, reading the word and storing the new value in one
indivisible step; it returns the pair (value read, value now stored). -/
def xchg (word newVal : Nat) : Nat × Nat := (word, newVal)

/-- `binsem_init`: stores 1 if `init_val > 0`, else 0. -/
def binsem_init (initVal : Int) : Nat :=
  if initVal > 0 then 1 else 0

/-- `binsem_up`: `xchg(s, 1)` — unconditionally stores 1. -/
def binsem_up (s : Nat) : Nat := (xchg s 1).2

/-- `binsem_down`: `xchg(s, 0)`; if the value read was 0, cancel the
pending alarm (`alarm(0)`) and `raise(SIGALRM)`, returning the result of
`raise` (supplied as `raiseRet`, since `raise` is an external call);
otherwise return 0.  The result is (return value, new semaphore word,
side-effect trace). -/
def binsem_down (raiseRet : Int) (s : Nat) : Int × Nat × List Eff :=
  let r := xchg s 0
  if r.1 = 0 then (raiseRet, r.2, [Eff.cancelAlarm, Eff.raiseSig])
  else (0, r.2, [])

/-! ## Threads library (`ut.c`) -/

/-- The clamping at the top of `ut_init`:
`if (tab_size > MAX_TAB_SIZE || tab_size < MIN_TAB_SIZE) tab_size = MAX_TAB_SIZE`.
The numeric values of `MIN_TAB_SIZE`/`MAX_TAB_SIZE` live in the missing
`ut.h`, so they are parameters (`minT`, `maxT`) throughout. -/
def clampTabSize (minT maxT : Nat) (tabSize : Int) : Nat :=
  if tabSize > (maxT : Int) ∨ tabSize < (minT : Int) then maxT else tabSize.toNat

/-- `release_memory`: if the table is non-NULL, `free` each
`threads_table[i].uc.uc_stack.ss_sp` for `i < threads_table_size` and
then the table itself, returning the list of pointers passed to `free`
in order; if the table is NULL it prints an error and exits
(`none`), and indexing past the allocated region is undefined
behaviour (`none`). -/
def release_memory (st : UTState) : Option (List Int) :=
  match st.threads_table with
  | some t =>
      if st.threads_table_size ≤ t.slots.length then
        some (((t.slots.take st.threads_table_size).map Slot.stackSS) ++ [t.ptr])
      else none
  | none => none

/-- `ut_init`: clamps `tab_size`, tears down an existing table via
`release_memory`, resets `threads_table_size`, `next_position`,
`curr_thread`, then assigns `threads_table = malloc(...)` (the `malloc`
result is the `alloc` parameter: `none` = allocation failure, otherwise
the region's address and indeterminate initial contents).  Returns
(return value, new state, pointers freed by the teardown). -/
def ut_init (minT maxT : Nat) (tabSize : Int) (alloc : Option TableMem)
    (st : UTState) : Option (Int × UTState × List Int) :=
  let ts := clampTabSize minT maxT tabSize
  let freed? : Option (List Int) :=
    match st.threads_table with
    | some _ => release_memory st
    | none => some []
  match freed? with
  | none => none
  | some freed =>
      let st' : UTState :=
        { threads_table := alloc, threads_table_size := ts
          next_position := 0, curr_thread := 0, vtime := st.vtime }
      some (if alloc.isSome then 0 else SYS_ERR, st', freed)

/-- `ut_spawn_thread`: returns `TAB_FULL` (touching nothing) when
`next_position == threads_table_size`; otherwise `malloc`s a stack
(`stackAlloc` parameter) and captures the context (`getctxOk`
parameter), returning `SYS_ERR` on failure of either; on success links
the new context to `uc_out`, installs the stack, runs `makecontext`,
zeroes `vtime`, records `func`/`arg`, and returns `next_position++`. -/
def ut_spawn_thread (stackAlloc : Option Int) (getctxOk : Bool)
    (func arg : Int) (st : UTState) : Option (Int × UTState) :=
  if st.next_position = st.threads_table_size then some (TAB_FULL, st)
  else
    match stackAlloc with
    | none => some (SYS_ERR, st)
    | some stackPtr =>
        match st.threads_table with
        | none => none
        | some t =>
            if _h : st.next_position < t.slots.length then
              if getctxOk then
                let sl' : Slot :=
                  { stackSS := stackPtr, vtime := 0, func := func
                    arg := arg, linked := true }
                let t' : TableMem := { t with slots := t.slots.set st.next_position sl' }
                some ((st.next_position : Int),
                  { st with threads_table := some t',
                            next_position := st.next_position + 1 })
              else some (SYS_ERR, st)
            else none

/-- The three signal kinds `thread_signals_handler` recognizes, plus any
other signal number (which falls through the `if`/`else if` chain). -/
inductive Signal where
  | sigalrm
  | sigvtalrm
  | sigint
  | other
deriving DecidableEq, Repr

/-- `thread_signals_handler`:
`SIGALRM` re-arms `alarm(QUANTUM)`, advances `curr_thread` to
`(curr_thread + 1) % threads_table_size`, and `swapcontext`s from the old
slot to the new one (exit on failure — `swapOk` parameter; `% 0` and
indexing a NULL or too-small table are undefined behaviour).
`SIGVTALRM` adds `INTERVAL_MICRO` to the global `vtime` and to the
current slot's `vtime`.
`SIGINT` cancels the alarm, calls the previously installed handler if
its pointer is non-NULL (`oldHandler` parameter), then runs
`release_memory`. -/
def thread_signals_handler (sig : Signal) (swapOk oldHandler : Bool)
    (st : UTState) : Option (UTState × List Eff) :=
  match sig with
  | Signal.sigalrm =>
      if st.threads_table_size = 0 then none
      else
        let last := st.curr_thread
        let curr' := (st.curr_thread + 1) % st.threads_table_size
        match st.threads_table with
        | none => none
        | some t =>
            if last < t.slots.length ∧ curr' < t.slots.length then
              if swapOk then
                some ({ st with curr_thread := curr' },
                  [Eff.setAlarm QUANTUM, Eff.swapCtx last curr'])
              else none
            else none
  | Signal.sigvtalrm =>
      match st.threads_table with
      | none => none
      | some t =>
          if h : st.curr_thread < t.slots.length then
            let sl := t.slots[st.curr_thread]
            let t' : TableMem :=
              { t with slots :=
                  t.slots.set st.curr_thread { sl with
                    vtime := (sl.vtime + INTERVAL_MICRO) % ULONG_MOD } }
            some ({ st with vtime := (st.vtime + INTERVAL_MICRO) % ULONG_MOD,
                            threads_table := some t' }, [])
          else none
  | Signal.sigint =>
      match release_memory st with
      | none => none
      | some freed =>
          some (st, [Eff.cancelAlarm]
            ++ (if oldHandler then [Eff.callOldHandler] else [])
            ++ freed.map Eff.freeMem)
  | Signal.other => some (st, [])

/-- `ut_get_vtime`: returns the slot's `vtime` when `0 <= tid < threads_table_size`
(dereferencing the table — undefined behaviour if it is NULL or shorter
than `threads_table_size`), and 0 otherwise.  The state is returned
alongside to express what the call does (and does not do) to the
library's static variables. -/
def ut_get_vtime (tid : Int) (st : UTState) : Option (Nat × UTState) :=
  if 0 ≤ tid ∧ tid < (st.threads_table_size : Int) then
    match st.threads_table with
    | none => none
    | some t =>
        if h : tid.toNat < t.slots.length then
          some ((t.slots[tid.toNat]).vtime, st)
        else none
  else some (0, st)

/-! ## Derived definitions used by the verification -/

/-- Teardown is reachable without undefined behaviour: the table is either
NULL or at least `threads_table_size` slots long (the latter always holds
for a table produced by `ut_init`). -/
def releaseSafe (st : UTState) : Prop :=
  ∀ t, st.threads_table = some t → st.threads_table_size ≤ t.slots.length

/-- The slot contents written by a successful `ut_spawn_thread` that used
stack address `p`, entry function `fn` and argument `a`. -/
def spawnedSlot (p fn a : Int) : Slot :=
  { stackSS := p, vtime := 0, func := fn, arg := a, linked := true }

/-- `n` consecutive `ut_spawn_thread` calls (entry function and argument 0,
stack addresses drawn from `f` at the slot index), all required to
succeed (a non-negative thread id). -/
def spawnN (f : Nat → Int) : Nat → UTState → Option UTState
  | 0, st => some st
  | n + 1, st =>
      match ut_spawn_thread (some (f st.next_position)) true 0 0 st with
      | some (r, st') => if 0 ≤ r then spawnN f n st' else none
      | none => none

/-- `n` consecutive `SIGVTALRM` deliveries to `thread_signals_handler`. -/
def tickN : Nat → UTState → Option UTState
  | 0, st => some st
  | n + 1, st =>
      match thread_signals_handler Signal.sigvtalrm true false st with
      | some (st', _) => tickN n st'
      | none => none

/-- Sum of the per-slot `vtime` counters over a slot array. -/
def vtimeSum (l : List Slot) : Nat := (l.map Slot.vtime).sum

/-! ## Concrete scenario: capacity 2, table at address 100, `malloc`
leaving indeterminate residue in the fresh slots, one thread spawned with
stack address 500. -/

/-- A `malloc`-ed table region at address 100 whose two fresh slots hold
indeterminate residue (in particular, slot 1 has residual
`vtime = 5` and residual stack-pointer field `999`). -/
def memG : TableMem :=
  { ptr := 100,
    slots := [{ stackSS := 111, vtime := 7, func := 3, arg := 4, linked := false },
              { stackSS := 999, vtime := 5, func := 6, arg := 2, linked := false }] }

/-- The static state right after `ut_init` succeeds on `memG` with
requested capacity 2 (bounds 1 and 8). -/
def stInit2 : UTState :=
  { threads_table := some memG, threads_table_size := 2, next_position := 0,
    curr_thread := 0, vtime := 0 }

/-- The table after spawning one thread (stack 500, entry 10, argument 42)
into `memG`: slot 0 is initialized, slot 1 still holds its residue. -/
def tPost : TableMem :=
  { ptr := 100,
    slots := [spawnedSlot 500 10 42,
              { stackSS := 999, vtime := 5, func := 6, arg := 2, linked := false }] }

/-- The static state after that single spawn: one of two slots used. -/
def stOne : UTState :=
  { threads_table := some tPost, threads_table_size := 2, next_position := 1,
    curr_thread := 0, vtime := 0 }

/-- The table after spawning both slots via `spawnN` (stacks 500 and 501,
entry function and argument 0). -/
def tFull : TableMem :=
  { ptr := 100, slots := [spawnedSlot 500 0 0, spawnedSlot 501 0 0] }

/-- The static state after `ut_init` on `memG` and two successful spawns. -/
def stTwo : UTState :=
  { threads_table := some tFull, threads_table_size := 2, next_position := 2,
    curr_thread := 0, vtime := 0 }

/-- Every address handed out by an allocation in the one-spawn scenario:
the table region (100) and the single spawned stack (500). -/
def allocatedPtrs : List Int := [100, 500]

/-! ## Theorems -/

/-- C4: `binsem_down` exchanges the semaphore word with 0; when the value
read was 0 it cancels the pending alarm, raises the preemption signal and
returns the outcome of the raise (and an `initialize(0)` immediately
followed by `acquire` takes exactly this contended path); when the value
read was 1 it returns the success indicator 0 and leaves the word 0
(held). -/
theorem binsem_down_contended_vs_success (r : Int) (s : Nat) :
    (s = 0 → binsem_down r s = (r, 0, [Eff.cancelAlarm, Eff.raiseSig])) ∧
    (s = 1 → binsem_down r s = (0, 0, [])) ∧
    binsem_down r (binsem_init 0) = (r, 0, [Eff.cancelAlarm, Eff.raiseSig]) := by
  refine ⟨fun h => by subst h; rfl, fun h => by subst h; rfl, rfl⟩

/-- Witness for C4 at concrete inputs. -/
theorem binsem_down_contended_vs_success_witness :
    binsem_down 7 0 = (7, 0, [Eff.cancelAlarm, Eff.raiseSig]) ∧
    binsem_down 7 1 = (0, 0, []) :=
  ⟨(binsem_down_contended_vs_success 7 0).1 rfl,
   (binsem_down_contended_vs_success 7 1).2.1 rfl⟩

/-- C5: `binsem_up` stores 1 regardless of the prior word, and an
`acquire` performed immediately after a `release` succeeds instantly:
it returns 0 with no cancelled alarm and no raised signal, leaving the
semaphore held. -/
theorem binsem_up_then_down_instant (s : Nat) (r : Int) :
    binsem_up s = 1 ∧ binsem_down r (binsem_up s) = (0, 0, []) :=
  ⟨rfl, rfl⟩

/-- C10: `ut_get_vtime` is a pure observer — whenever the call returns
normally, the library's static state after the call is exactly the state
before it. -/
theorem ut_get_vtime_pure (tid : Int) (st : UTState) (v : Nat) (st' : UTState)
    (h : ut_get_vtime tid st = some (v, st')) : st' = st := by
  unfold ut_get_vtime at h
  split at h
  · split at h
    · exact absurd h (by simp)
    · split at h
      · simp only [Option.some.injEq, Prod.mk.injEq] at h
        exact h.2.symm
      · exact absurd h (by simp)
  · simp only [Option.some.injEq, Prod.mk.injEq] at h
    exact h.2.symm

/-- Witness for C10: the lookup of id 1 in the one-spawn scenario state
returns normally and leaves the state untouched. -/
theorem ut_get_vtime_pure_witness : stOne = stOne :=
  ut_get_vtime_pure 1 stOne 5 stOne rfl

/-- C3 counterexample: with requested capacity 2 (bounds 1 and 8) and a
fresh table whose `malloc` residue leaves 5 in slot 1's `vtime` field,
spawning only thread 0 and then calling `ut_get_vtime 1` — a valid index
whose slot was never spawned — returns 5, not 0: `malloc` does not zero
the slot array, so a never-spawned slot's counter is indeterminate
residue rather than 0. -/
theorem ut_get_vtime_unspawned_cex :
    ut_init 1 8 2 (some memG) initialState = some (0, stInit2, []) ∧
    ut_spawn_thread (some 500) true 10 42 stInit2 = some (0, stOne) ∧
    stOne.next_position = 1 ∧ stOne.threads_table_size = 2 ∧
    ut_get_vtime 1 stOne = some (5, stOne) ∧ (5 : Nat) ≠ 0 := by
  exact ⟨rfl, rfl, rfl, rfl, rfl, by decide⟩

/-- C3 amended: `ut_get_vtime` returns 0 for every id that is negative or
at least `threads_table_size`; for every in-range id it returns whatever
value the slot's `vtime` field currently holds — for a never-spawned slot
that is the indeterminate `malloc` residue, which need not be 0. -/
theorem ut_get_vtime_range_amended (tid : Int) (st : UTState) :
    (tid < 0 ∨ (st.threads_table_size : Int) ≤ tid →
      ut_get_vtime tid st = some (0, st)) ∧
    (∀ t, st.threads_table = some t → 0 ≤ tid →
      tid < (st.threads_table_size : Int) →
      ∀ hlen : tid.toNat < t.slots.length,
        ut_get_vtime tid st = some ((t.slots[tid.toNat]).vtime, st)) := by
  constructor
  · intro h
    unfold ut_get_vtime
    rw [if_neg]
    omega
  · intro t ht h0 hs hlen
    unfold ut_get_vtime
    rw [if_pos ⟨h0, hs⟩, ht]
    exact dif_pos hlen

/-- Witness for the amended C3: id -1 is out of range and yields 0; id 1
is in range but never spawned and yields the residual value 5. -/
theorem ut_get_vtime_range_amended_witness :
    ut_get_vtime (-1) stOne = some (0, stOne) ∧
    ut_get_vtime 1 stOne = some (5, stOne) :=
  ⟨(ut_get_vtime_range_amended (-1) stOne).1 (Or.inl (by decide)),
   (ut_get_vtime_range_amended 1 stOne).2 tPost rfl (by decide) (by decide)
     (by decide)⟩

/-- Requesting exactly `MAX_TAB_SIZE` is a fixed point of the clamping. -/
theorem clampTabSize_maxT (minT maxT : Nat) :
    clampTabSize minT maxT (maxT : Int) = maxT := by
  unfold clampTabSize
  split
  · rfl
  · exact Int.toNat_natCast maxT

/-- Under `releaseSafe`, `ut_init` returns normally; the result state and
freed list are explicit. -/
theorem ut_init_eq (minT maxT : Nat) (cap : Int) (alloc : Option TableMem)
    (st : UTState) (hsafe : releaseSafe st) :
    ∃ freed, ut_init minT maxT cap alloc st =
      some (if alloc.isSome then 0 else SYS_ERR,
        { threads_table := alloc,
          threads_table_size := clampTabSize minT maxT cap,
          next_position := 0, curr_thread := 0, vtime := st.vtime }, freed) := by
  cases h : st.threads_table with
  | none =>
      refine ⟨[], ?_⟩
      simp only [ut_init, h]
  | some t =>
      have hle := hsafe t h
      refine ⟨(t.slots.take st.threads_table_size).map Slot.stackSS ++ [t.ptr], ?_⟩
      simp only [ut_init, release_memory, h, hle, if_true]

/-- C7: (a) for any requested capacity outside `[minT, maxT]`, `ut_init`
behaves exactly as if `maxT` had been requested; (b) for any state from
which teardown is well defined, `ut_init` returns normally, resets
`next_position` and `curr_thread` to 0, and returns the failure sentinel
exactly when the table allocation failed, 0 (success) otherwise. -/
theorem ut_init_clamp_reset_report (minT maxT : Nat) (cap : Int)
    (alloc : Option TableMem) (st : UTState) (hsafe : releaseSafe st) :
    (cap > (maxT : Int) ∨ cap < (minT : Int) →
      ut_init minT maxT cap alloc st = ut_init minT maxT (maxT : Int) alloc st) ∧
    (∃ r st' freed, ut_init minT maxT cap alloc st = some (r, st', freed) ∧
      st'.next_position = 0 ∧ st'.curr_thread = 0 ∧
      (r = SYS_ERR ↔ alloc = none) ∧ (r = 0 ↔ alloc.isSome)) := by
  constructor
  · intro hout
    have hc : clampTabSize minT maxT cap = clampTabSize minT maxT (maxT : Int) := by
      rw [clampTabSize_maxT]
      unfold clampTabSize
      exact if_pos hout
    unfold ut_init
    rw [hc]
  · obtain ⟨freed, hfr⟩ := ut_init_eq minT maxT cap alloc st hsafe
    refine ⟨_, _, freed, hfr, rfl, rfl, ?_, ?_⟩
    · cases alloc with
      | none => simp
      | some t => simp [SYS_ERR]
    · cases alloc with
      | none => simp [SYS_ERR]
      | some t => simp

/-- Witness for C7: requesting capacity 100 with bounds 1 and 8 behaves
exactly like requesting 8, and a successful concrete `ut_init` resets the
indices and reports success. -/
theorem ut_init_clamp_reset_report_witness :
    (ut_init 1 8 100 (some memG) initialState =
      ut_init 1 8 (8 : Int) (some memG) initialState) ∧
    (∃ r st' freed,
      ut_init 1 8 100 (some memG) initialState = some (r, st', freed) ∧
      st'.next_position = 0 ∧ st'.curr_thread = 0 ∧
      (r = SYS_ERR ↔ (some memG : Option TableMem) = none) ∧
      (r = 0 ↔ (some memG : Option TableMem).isSome)) :=
  ⟨(ut_init_clamp_reset_report 1 8 100 (some memG) initialState
      (fun t ht => nomatch ht)).1 (Or.inl (by decide)),
   (ut_init_clamp_reset_report 1 8 100 (some memG) initialState
      (fun t ht => nomatch ht)).2⟩

/-- C9: a failed `ut_init` is not atomic — it returns the resource-error
sentinel with the table pointer NULL, yet the stored capacity is already
the clamped requested value and both indices are already reset to 0, so
after the failure `ut_get_vtime` treats every id below the clamped
capacity as in range and dereferences the missing table (undefined
behaviour, `none` in the model). -/
theorem ut_init_failure_not_atomic (minT maxT : Nat) (cap : Int)
    (st : UTState) (hsafe : releaseSafe st) :
    ∃ st' freed, ut_init minT maxT cap none st = some (SYS_ERR, st', freed) ∧
      st'.threads_table = none ∧
      st'.threads_table_size = clampTabSize minT maxT cap ∧
      st'.next_position = 0 ∧ st'.curr_thread = 0 ∧
      (∀ tid : Int, 0 ≤ tid → tid < (clampTabSize minT maxT cap : Int) →
        ut_get_vtime tid st' = none) := by
  obtain ⟨freed, hfr⟩ := ut_init_eq minT maxT cap none st hsafe
  refine ⟨_, freed, hfr, rfl, rfl, rfl, rfl, ?_⟩
  intro tid h0 hlt
  unfold ut_get_vtime
  rw [if_pos ⟨h0, hlt⟩]

/-- Witness for C9: a concrete failed `ut_init` (requested capacity 2,
bounds 1 and 8, allocation failure) leaves capacity 2 visible with no
table, and `ut_get_vtime 1` hits the in-range dereference of the missing
table. -/
theorem ut_init_failure_not_atomic_witness :
    ∃ st' freed, ut_init 1 8 2 none initialState = some (SYS_ERR, st', freed) ∧
      st'.threads_table = none ∧
      st'.threads_table_size = clampTabSize 1 8 2 ∧
      st'.next_position = 0 ∧ st'.curr_thread = 0 ∧
      (∀ tid : Int, 0 ≤ tid → tid < (clampTabSize 1 8 2 : Int) →
        ut_get_vtime tid st' = none) :=
  ut_init_failure_not_atomic 1 8 2 initialState (fun _ ht => nomatch ht)


/-- One `SIGVTALRM` delivery on a state whose current slot exists: both
the global accumulator and the current slot's counter grow by exactly
`INTERVAL_MICRO` modulo the 64-bit wrap, nothing else changes, and no
external effect (in particular no context switch) is produced. -/
theorem tick_eq (swapOk oldH : Bool) (st : UTState) (t : TableMem)
    (ht : st.threads_table = some t) (hc : st.curr_thread < t.slots.length) :
    thread_signals_handler Signal.sigvtalrm swapOk oldH st =
      some ({ st with vtime := (st.vtime + INTERVAL_MICRO) % ULONG_MOD, threads_table := some { t with slots := t.slots.set st.curr_thread { t.slots[st.curr_thread] with vtime := ((t.slots[st.curr_thread]).vtime + INTERVAL_MICRO) % ULONG_MOD } } }, []) := by
  simp only [thread_signals_handler, ht, hc, dif_pos]

/-- One `SIGINT` delivery: the alarm is cancelled, the previously
installed handler is chained when its pointer is non-NULL, and the
pointers collected by `release_memory` are freed, in that order; the
static variables are untouched. -/
theorem sigint_eq (swapOk oldH : Bool) (st : UTState) (freed : List Int)
    (hrel : release_memory st = some freed) :
    thread_signals_handler Signal.sigint swapOk oldH st =
      some (st, [Eff.cancelAlarm]
        ++ (if oldH then [Eff.callOldHandler] else [])
        ++ freed.map Eff.freeMem) := by
  simp only [thread_signals_handler, hrel]

/-- `ut_spawn_thread` never changes `curr_thread`, `threads_table_size`
or the global `vtime`, whatever path it takes. -/
theorem spawn_frame (sa : Option Int) (gc : Bool) (fn a : Int)
    (st : UTState) (r : Int) (st' : UTState)
    (hh : ut_spawn_thread sa gc fn a st = some (r, st')) :
    st'.curr_thread = st.curr_thread ∧
    st'.threads_table_size = st.threads_table_size ∧
    st'.vtime = st.vtime ∧ st'.next_position ≥ st.next_position := by
  unfold ut_spawn_thread at hh
  repeat' split at hh
  all_goals try exact Option.noConfusion hh
  all_goals cases hh
  all_goals
    exact ⟨rfl, rfl, rfl, by first | exact Nat.le_refl _ | exact Nat.le_succ _⟩

/-- C1: on a preemption tick (`SIGALRM`) with a well-formed table, the
handler re-arms the alarm for one quantum, computes
`next = (curr_thread + 1) % threads_table_size` — the full table
capacity, so the target is independent of `next_position` (the number of
spawned threads, and a never-spawned slot is switched into whenever
`next ≥ next_position`) — swaps from the slot at the old `curr_thread`
to the slot at `next`, and sets `curr_thread = next`; the new
`curr_thread` is again below the capacity, and neither the virtual-clock
tick, the termination handler, nor `ut_spawn_thread` ever changes
`curr_thread`. -/
theorem preemption_round_robin (st : UTState) (t : TableMem) (old : Bool)
    (ht : st.threads_table = some t)
    (hlen : t.slots.length = st.threads_table_size)
    (hpos : 0 < st.threads_table_size)
    (hc : st.curr_thread < st.threads_table_size) :
    (thread_signals_handler Signal.sigalrm true old st =
      some ({ st with curr_thread := (st.curr_thread + 1) % st.threads_table_size },
        [Eff.setAlarm QUANTUM,
         Eff.swapCtx st.curr_thread ((st.curr_thread + 1) % st.threads_table_size)])) ∧
    (st.curr_thread + 1) % st.threads_table_size < st.threads_table_size ∧
    (∀ np : Nat,
      thread_signals_handler Signal.sigalrm true old { st with next_position := np } =
        some ({ st with next_position := np,
                        curr_thread := (st.curr_thread + 1) % st.threads_table_size },
          [Eff.setAlarm QUANTUM,
           Eff.swapCtx st.curr_thread ((st.curr_thread + 1) % st.threads_table_size)])) ∧
    (∀ st' acts, thread_signals_handler Signal.sigvtalrm true old st = some (st', acts) →
      st'.curr_thread = st.curr_thread) ∧
    (∀ st' acts, thread_signals_handler Signal.sigint true old st = some (st', acts) →
      st'.curr_thread = st.curr_thread) ∧
    (∀ sa gc fn a r st', ut_spawn_thread sa gc fn a st = some (r, st') →
      st'.curr_thread = st.curr_thread) := by
  have hne : st.threads_table_size ≠ 0 := Nat.pos_iff_ne_zero.mp hpos
  have hmod : (st.curr_thread + 1) % st.threads_table_size < st.threads_table_size :=
    Nat.mod_lt _ hpos
  have hb1 : st.curr_thread < t.slots.length := by omega
  have hb2 : (st.curr_thread + 1) % st.threads_table_size < t.slots.length := by omega
  refine ⟨?_, hmod, ?_, ?_, ?_, ?_⟩
  · simp only [thread_signals_handler, ht, if_neg hne, if_pos (And.intro hb1 hb2)]
    rfl
  · intro np
    simp only [thread_signals_handler, ht, if_neg hne, if_pos (And.intro hb1 hb2)]
    rfl
  · intro st' acts hh
    rw [tick_eq true old st t ht hb1] at hh
    cases hh
    rfl
  · intro st' acts hh
    rcases hrel : release_memory st with _ | freed
    · simp only [thread_signals_handler, hrel] at hh
      exact Option.noConfusion hh
    · rw [sigint_eq true old st freed hrel] at hh
      cases hh
      rfl
  · intro sa gc fn a r st' hh
    exact (spawn_frame sa gc fn a st r st' hh).1

/-- Witness for C1: in the fully spawned two-slot scenario with
`curr_thread = 0`, the preemption tick re-arms the alarm, switches from
slot 0 to slot 1 and keeps `curr_thread` within the capacity; the other
operations leave `curr_thread` alone. -/
theorem preemption_round_robin_witness :
    (thread_signals_handler Signal.sigalrm true false stTwo =
      some ({ stTwo with curr_thread := (stTwo.curr_thread + 1) % stTwo.threads_table_size },
        [Eff.setAlarm QUANTUM,
         Eff.swapCtx stTwo.curr_thread
           ((stTwo.curr_thread + 1) % stTwo.threads_table_size)])) ∧
    (stTwo.curr_thread + 1) % stTwo.threads_table_size < stTwo.threads_table_size ∧
    (∀ np : Nat,
      thread_signals_handler Signal.sigalrm true false { stTwo with next_position := np } =
        some ({ stTwo with next_position := np, curr_thread := (stTwo.curr_thread + 1) % stTwo.threads_table_size },
          [Eff.setAlarm QUANTUM,
           Eff.swapCtx stTwo.curr_thread
             ((stTwo.curr_thread + 1) % stTwo.threads_table_size)])) ∧
    (∀ st' acts, thread_signals_handler Signal.sigvtalrm true false stTwo = some (st', acts) →
      st'.curr_thread = stTwo.curr_thread) ∧
    (∀ st' acts, thread_signals_handler Signal.sigint true false stTwo = some (st', acts) →
      st'.curr_thread = stTwo.curr_thread) ∧
    (∀ sa gc fn a r st', ut_spawn_thread sa gc fn a stTwo = some (r, st') →
      st'.curr_thread = stTwo.curr_thread) :=
  preemption_round_robin stTwo tFull false rfl (by decide) (by decide) (by decide)

/-- A successful single spawn, spelled out: with slot `next_position`
available, `ut_spawn_thread` writes the freshly initialized slot there
and advances `next_position`. -/
theorem spawn_step_eq (p fn a : Int) (st : UTState) (t : TableMem)
    (ht : st.threads_table = some t)
    (hne : st.next_position ≠ st.threads_table_size)
    (hlt : st.next_position < t.slots.length) :
    ut_spawn_thread (some p) true fn a st =
      some ((st.next_position : Int),
        { st with threads_table := some { t with slots := t.slots.set st.next_position (spawnedSlot p fn a) }, next_position := st.next_position + 1 }) := by
  simp only [ut_spawn_thread, ht, if_neg hne, dif_pos hlt]
  rfl

/-- `spawnN` from a well-formed state: all `n` spawns succeed, the first
`n` free slots are filled in order, `next_position` advances by `n`, and
if every already-spawned slot had a zero counter then so does every slot
spawned so far afterwards. -/
theorem spawnN_ok (f : Nat → Int) : ∀ (n : Nat) (st : UTState) (t : TableMem),
    st.threads_table = some t → t.slots.length = st.threads_table_size →
    st.next_position + n ≤ st.threads_table_size →
    ∃ t', spawnN f n st =
        some { st with threads_table := some t', next_position := st.next_position + n } ∧
      t'.ptr = t.ptr ∧ t'.slots.length = t.slots.length ∧
      ((∀ i, ∀ hi : i < t.slots.length, i < st.next_position → (t.slots[i]).vtime = 0) →
        ∀ i, ∀ hi : i < t'.slots.length, i < st.next_position + n →
          (t'.slots[i]).vtime = 0) := by
  intro n
  induction n with
  | zero =>
      intro st t ht hlen hb
      refine ⟨t, ?_, rfl, rfl, ?_⟩
      · rw [spawnN, ← ht]
        rfl
      · intro hz i hi hlt
        exact hz i hi (by omega)
  | succ n ih =>
      intro st t ht hlen hb
      have hlt : st.next_position < st.threads_table_size := by omega
      have hlt' : st.next_position < t.slots.length := by omega
      have hstep := spawn_step_eq (f st.next_position) 0 0 st t ht (by omega) hlt'
      have hpos0 : (0 : Int) ≤ (st.next_position : Int) := Int.natCast_nonneg _
      obtain ⟨t', hsp, hptr, hlen2, hz⟩ := ih
        { st with threads_table := some { t with slots := t.slots.set st.next_position (spawnedSlot (f st.next_position) 0 0) }, next_position := st.next_position + 1 }
        { t with slots := t.slots.set st.next_position (spawnedSlot (f st.next_position) 0 0) }
        rfl (by simpa using hlen) (by simpa using (by omega : st.next_position + 1 + n ≤ st.threads_table_size))
      refine ⟨t', ?_, hptr, by simpa using hlen2, ?_⟩
      · rw [spawnN, hstep]
        simp only [if_pos hpos0]
        rw [hsp]
        have harith : st.next_position + 1 + n = st.next_position + (n + 1) := by omega
        rw [harith]
      · intro hz0 i hi hisucc
        have hz1 : ∀ i, ∀ hi : i < (t.slots.set st.next_position (spawnedSlot (f st.next_position) 0 0)).length,
            i < st.next_position + 1 →
            ((t.slots.set st.next_position (spawnedSlot (f st.next_position) 0 0))[i]).vtime = 0 := by
          intro j hj hjlt
          rcases Nat.lt_or_ge j st.next_position with hcase | hcase
          · rw [List.getElem_set_ne (by omega) hj]
            exact hz0 j (by simpa using hj) hcase
          · have hje : st.next_position = j := by omega
            subst hje
            rw [List.getElem_set_self hj]
            rfl
        refine hz hz1 i hi ?_
        show i < st.next_position + 1 + n
        omega

/-- C6: whenever `next_position == threads_table_size`, `ut_spawn_thread`
returns the capacity sentinel `TAB_FULL` with the state bit-for-bit
unchanged; in particular, after `ut_init` with an in-range capacity and
`threads_table_size` successful spawns, `next_position` has reached the
capacity and the next spawn fails exactly this way. -/
theorem spawn_capacity_sentinel (minT maxT : Nat) (cap : Int) (mem : TableMem)
    (f : Nat → Int) (st st1 : UTState) (freed : List Int) (r : Int)
    (sa : Option Int) (gc : Bool) (fn a : Int) :
    (st.next_position = st.threads_table_size →
      ut_spawn_thread sa gc fn a st = some (TAB_FULL, st)) ∧
    (mem.slots.length = clampTabSize minT maxT cap →
     ut_init minT maxT cap (some mem) initialState = some (r, st1, freed) →
     ∃ st2, spawnN f st1.threads_table_size st1 = some st2 ∧
       st2.next_position = st2.threads_table_size ∧
       ut_spawn_thread sa gc fn a st2 = some (TAB_FULL, st2)) := by
  have hfull : ∀ s : UTState, s.next_position = s.threads_table_size →
      ut_spawn_thread sa gc fn a s = some (TAB_FULL, s) := by
    intro s hs
    unfold ut_spawn_thread
    rw [if_pos hs]
  refine ⟨hfull st, ?_⟩
  intro hmemlen hinit
  obtain ⟨fr0, hfr⟩ := ut_init_eq minT maxT cap (some mem) initialState
    (fun s hs => nomatch hs)
  rw [hinit] at hfr
  simp only [Option.some.injEq, Prod.mk.injEq] at hfr
  obtain ⟨hr, hst1, hfreed⟩ := hfr
  subst hst1
  obtain ⟨t2, hsp, hptr, hlen2, hz⟩ := spawnN_ok f (clampTabSize minT maxT cap)
    { threads_table := some mem, threads_table_size := clampTabSize minT maxT cap,
      next_position := 0, curr_thread := 0, vtime := initialState.vtime } mem
    rfl hmemlen (Nat.le_of_eq (Nat.zero_add _))
  refine ⟨_, hsp, ?_, ?_⟩
  · show 0 + clampTabSize minT maxT cap = clampTabSize minT maxT cap
    exact Nat.zero_add _
  · apply hfull
    show 0 + clampTabSize minT maxT cap = clampTabSize minT maxT cap
    exact Nat.zero_add _

/-- Witness for C6: spawning into the full two-slot state returns the
sentinel unchanged, and the concrete init-then-fill scenario reaches the
full state. -/
theorem spawn_capacity_sentinel_witness :
    ut_spawn_thread (some 7) true 0 0 stTwo = some (TAB_FULL, stTwo) ∧
    (∃ st2, spawnN (fun i => (500 + i : Int)) stInit2.threads_table_size stInit2 = some st2 ∧
      st2.next_position = st2.threads_table_size ∧
      ut_spawn_thread (some 7) true 0 0 st2 = some (TAB_FULL, st2)) :=
  ⟨(spawn_capacity_sentinel 1 8 2 memG (fun i => (500 + i : Int)) stTwo stInit2 [] 0
      (some 7) true 0 0).1 rfl,
   (spawn_capacity_sentinel 1 8 2 memG (fun i => (500 + i : Int)) stTwo stInit2 [] 0
      (some 7) true 0 0).2 rfl rfl⟩

/-- A table whose every slot has a zero counter sums to zero. -/
theorem vtimeSum_zero (l : List Slot)
    (hz : ∀ i, ∀ hi : i < l.length, (l[i]).vtime = 0) : vtimeSum l = 0 := by
  apply List.sum_eq_zero
  intro x hx
  rw [List.mem_map] at hx
  obtain ⟨sl, hmem, hsl⟩ := hx
  obtain ⟨i, hi, hget⟩ := List.mem_iff_getElem.mp hmem
  rw [← hsl, ← hget]
  exact hz i hi

/-- A table in which every slot but one has a zero counter sums to that
one slot's counter. -/
theorem vtimeSum_single : ∀ (l : List Slot) (c : Nat) (hc : c < l.length),
    (∀ i, i ≠ c → ∀ hi : i < l.length, (l[i]).vtime = 0) →
    vtimeSum l = (l[c]).vtime := by
  intro l
  induction l with
  | nil =>
      intro c hc _
      exact absurd hc (by simp)
  | cons x xs ih =>
      intro c hc hz
      cases c with
      | zero =>
          have hxs : vtimeSum xs = 0 := by
            refine vtimeSum_zero xs (fun i hi => ?_)
            have := hz (i + 1) (by omega) (by simpa using hi)
            simpa using this
          simp only [vtimeSum] at hxs ⊢
          simp [hxs]
      | succ j =>
          have hj : j < xs.length := by simpa using hc
          have hx0 : x.vtime = 0 := by
            have := hz 0 (by omega) (by simp)
            simpa using this
          have hxs : vtimeSum xs = (xs[j]).vtime := by
            refine ih j hj (fun i hne hi => ?_)
            have := hz (i + 1) (by omega) (by simpa using hi)
            simpa using this
          simp only [vtimeSum, List.map_cons, List.sum_cons, List.getElem_cons_succ]
          rw [hx0]
          simpa [vtimeSum] using hxs

/-- The 64-bit modulus is positive. -/
theorem ULONG_MOD_pos : 0 < ULONG_MOD := by
  norm_num [ULONG_MOD]

/-- `n` virtual-clock ticks from a well-formed state whose counters are
in 64-bit range: the run returns normally, the global accumulator and
the running slot's counter each end at their start value plus
`INTERVAL_MICRO * n`, reduced modulo the 64-bit wrap, every other slot
is untouched, and no other static variable changes. -/
theorem tickN_ok : ∀ (n : Nat) (st : UTState) (t : TableMem),
    st.threads_table = some t →
    ∀ hc : st.curr_thread < t.slots.length,
    st.vtime < ULONG_MOD → (t.slots[st.curr_thread]).vtime < ULONG_MOD →
    ∃ st' t', tickN n st = some st' ∧
      st'.threads_table = some t' ∧
      st'.threads_table_size = st.threads_table_size ∧
      st'.next_position = st.next_position ∧
      st'.curr_thread = st.curr_thread ∧
      st'.vtime = (st.vtime + INTERVAL_MICRO * n) % ULONG_MOD ∧
      t'.ptr = t.ptr ∧ t'.slots.length = t.slots.length ∧
      (∀ hc' : st.curr_thread < t'.slots.length,
        (t'.slots[st.curr_thread]).vtime =
          ((t.slots[st.curr_thread]).vtime + INTERVAL_MICRO * n) % ULONG_MOD) ∧
      (∀ i, i ≠ st.curr_thread → ∀ hi : i < t.slots.length,
        ∀ hi' : i < t'.slots.length, t'.slots[i] = t.slots[i]) := by
  intro n
  induction n with
  | zero =>
      intro st t ht hc hv hsv
      refine ⟨st, t, rfl, ht, rfl, rfl, rfl, ?_, rfl, rfl, ?_, ?_⟩
      · show st.vtime = (st.vtime + INTERVAL_MICRO * 0) % ULONG_MOD
        rw [Nat.mul_zero, Nat.add_zero, Nat.mod_eq_of_lt hv]
      · intro hc'
        rw [Nat.mul_zero, Nat.add_zero, Nat.mod_eq_of_lt hsv]
      · intro i hne hi hi'
        rfl
  | succ n ih =>
      intro st t ht hc hv hsv
      have hstep := tick_eq true false st t ht hc
      have hc1 : st.curr_thread < (t.slots.set st.curr_thread { t.slots[st.curr_thread] with vtime := ((t.slots[st.curr_thread]).vtime + INTERVAL_MICRO) % ULONG_MOD }).length := by
        simpa using hc
      have hv1 : (st.vtime + INTERVAL_MICRO) % ULONG_MOD < ULONG_MOD :=
        Nat.mod_lt _ ULONG_MOD_pos
      have hsv1 : ((t.slots.set st.curr_thread { t.slots[st.curr_thread] with vtime := ((t.slots[st.curr_thread]).vtime + INTERVAL_MICRO) % ULONG_MOD })[st.curr_thread]).vtime < ULONG_MOD := by
        rw [List.getElem_set_self hc1]
        exact Nat.mod_lt _ ULONG_MOD_pos
      obtain ⟨st', t', hA, hB, hC, hD, hE, hF, hG, hH, hI, hJ⟩ := ih
        { st with vtime := (st.vtime + INTERVAL_MICRO) % ULONG_MOD, threads_table := some { t with slots := t.slots.set st.curr_thread { t.slots[st.curr_thread] with vtime := ((t.slots[st.curr_thread]).vtime + INTERVAL_MICRO) % ULONG_MOD } } }
        { t with slots := t.slots.set st.curr_thread { t.slots[st.curr_thread] with vtime := ((t.slots[st.curr_thread]).vtime + INTERVAL_MICRO) % ULONG_MOD } }
        rfl hc1 hv1 hsv1
      refine ⟨st', t', ?_, hB, hC, hD, hE, ?_, hG, ?_, ?_, ?_⟩
      · simp only [tickN, hstep]
        exact hA
      · rw [hF]
        show ((st.vtime + INTERVAL_MICRO) % ULONG_MOD + INTERVAL_MICRO * n) % ULONG_MOD =
          (st.vtime + INTERVAL_MICRO * (n + 1)) % ULONG_MOD
        rw [Nat.mod_add_mod]
        congr 1
        ring
      · exact hH.trans (by simp)
      · intro hc'
        rw [hI hc', List.getElem_set_self hc1]
        show (((t.slots[st.curr_thread]).vtime + INTERVAL_MICRO) % ULONG_MOD + INTERVAL_MICRO * n) % ULONG_MOD =
          ((t.slots[st.curr_thread]).vtime + INTERVAL_MICRO * (n + 1)) % ULONG_MOD
        rw [Nat.mod_add_mod]
        congr 1
        ring
      · intro i hne hi hi'
        have hi1 : i < (t.slots.set st.curr_thread { t.slots[st.curr_thread] with vtime := ((t.slots[st.curr_thread]).vtime + INTERVAL_MICRO) % ULONG_MOD }).length := by
          simpa using hi
        rw [hJ i hne hi1 hi']
        exact List.getElem_set_ne (Ne.symm hne) hi1

/-- The clamped capacity is at least `MIN_TAB_SIZE` whenever
`MIN_TAB_SIZE ≤ MAX_TAB_SIZE`. -/
theorem clampTabSize_ge (minT maxT : Nat) (cap : Int) (hmm : minT ≤ maxT) :
    minT ≤ clampTabSize minT maxT cap := by
  unfold clampTabSize
  split
  · exact hmm
  · rename_i hcond
    push_neg at hcond
    omega

/-- C2 counterexample: the virtual-time counters are wrapping 64-bit
`unsigned long`s, so the claimed unbounded exact increments and per-slot
monotonicity fail at the wrap boundary.  In the concrete fully spawned
two-slot scenario, after 184467440737095516 ticks the running slot's
counter (and the global accumulator) is 18446744073709551600, and after
one further tick it has wrapped around to 84 — it decreased, and the
accumulator no longer equals 100 times the number of ticks. -/
theorem vtick_wrap_cex :
    ∃ stA tA stB tB,
      tickN 184467440737095516 stTwo = some stA ∧
      stA.threads_table = some tA ∧
      tickN 184467440737095517 stTwo = some stB ∧
      stB.threads_table = some tB ∧
      tA.slots.map Slot.vtime = [18446744073709551600, 0] ∧
      tB.slots.map Slot.vtime = [84, 0] ∧
      stA.vtime = 18446744073709551600 ∧ stB.vtime = 84 ∧
      (84 : Nat) < 18446744073709551600 ∧
      (84 : Nat) ≠ 100 * 184467440737095517 := by
  obtain ⟨stA, tA, hA1, hA2, hA3, hA4, hA5, hA6, hA7, hA8, hA9, hA10⟩ :=
    tickN_ok 184467440737095516 stTwo tFull rfl (by decide) (by decide) (by decide)
  obtain ⟨stB, tB, hB1, hB2, hB3, hB4, hB5, hB6, hB7, hB8, hB9, hB10⟩ :=
    tickN_ok 184467440737095517 stTwo tFull rfl (by decide) (by decide) (by decide)
  have hlenA : tA.slots.length = 2 := hA8
  have hlenB : tB.slots.length = 2 := hB8
  have h0A : (0 : Nat) < tA.slots.length := by omega
  have h0B : (0 : Nat) < tB.slots.length := by omega
  have h1A : (1 : Nat) < tA.slots.length := by omega
  have h1B : (1 : Nat) < tB.slots.length := by omega
  refine ⟨stA, tA, stB, tB, hA1, hA2, hB1, hB2, ?_, ?_, ?_, ?_, by decide, by decide⟩
  · refine List.ext_getElem (by simpa using hlenA) ?_
    intro i hmi hni
    have hi : i < 2 := by simpa using hni
    interval_cases i
    · simp only [List.getElem_map, List.getElem_cons_zero]
      exact (hA9 h0A).trans (by decide)
    · simp only [List.getElem_map, List.getElem_cons_succ, List.getElem_cons_zero]
      rw [hA10 1 (by decide) (by decide) h1A]
      decide
  · refine List.ext_getElem (by simpa using hlenB) ?_
    intro i hmi hni
    have hi : i < 2 := by simpa using hni
    interval_cases i
    · simp only [List.getElem_map, List.getElem_cons_zero]
      exact (hB9 h0B).trans (by decide)
    · simp only [List.getElem_map, List.getElem_cons_succ, List.getElem_cons_zero]
      rw [hB10 1 (by decide) (by decide) h1B]
      decide
  · exact hA6.trans (by decide)
  · exact hB6.trans (by decide)

/-- C2 (amended): every `SIGVTALRM` tick adds exactly `INTERVAL_MICRO`,
taken modulo the 64-bit `unsigned long` wrap, to both the global
accumulator and the running slot's counter, and produces no effect (in
particular no context switch); and in the scenario "fresh table, every
slot spawned", after any number `n` of ticks the run returns normally,
the global accumulator equals the sum of all per-slot counters (both
being `INTERVAL_MICRO * n` reduced modulo `2 ^ 64`, held entirely by the
running slot), every non-running slot is untouched, and the indices are
unchanged. -/
theorem vtick_accounting (minT maxT : Nat) (cap : Int) (mem : TableMem)
    (f : Nat → Int) (n : Nat) (st1 st2 : UTState) (r : Int) (freed : List Int)
    (hminmax : 0 < minT ∧ minT ≤ maxT)
    (hmemlen : mem.slots.length = clampTabSize minT maxT cap)
    (hinit : ut_init minT maxT cap (some mem) initialState = some (r, st1, freed))
    (hspawn : spawnN f st1.threads_table_size st1 = some st2) :
    (∀ st : UTState, ∀ t, st.threads_table = some t →
      ∀ hc : st.curr_thread < t.slots.length,
      thread_signals_handler Signal.sigvtalrm true false st =
        some ({ st with vtime := (st.vtime + INTERVAL_MICRO) % ULONG_MOD, threads_table := some { t with slots := t.slots.set st.curr_thread { t.slots[st.curr_thread] with vtime := ((t.slots[st.curr_thread]).vtime + INTERVAL_MICRO) % ULONG_MOD } } }, [])) ∧
    (∃ st3 t3, tickN n st2 = some st3 ∧ st3.threads_table = some t3 ∧
      st3.vtime = vtimeSum t3.slots ∧
      st3.vtime = (INTERVAL_MICRO * n) % ULONG_MOD ∧
      st3.curr_thread = st2.curr_thread ∧
      st3.next_position = st2.next_position ∧
      st3.threads_table_size = st2.threads_table_size ∧
      (∀ hc3 : st2.curr_thread < t3.slots.length,
        (t3.slots[st2.curr_thread]).vtime = (INTERVAL_MICRO * n) % ULONG_MOD) ∧
      (∀ t2, st2.threads_table = some t2 →
        ∀ i, i ≠ st2.curr_thread → ∀ hi : i < t2.slots.length,
          ∀ hi' : i < t3.slots.length, t3.slots[i] = t2.slots[i])) := by
  refine ⟨fun st t ht hc => tick_eq true false st t ht hc, ?_⟩
  obtain ⟨fr0, hfr⟩ := ut_init_eq minT maxT cap (some mem) initialState
    (fun s hs => nomatch hs)
  rw [hinit] at hfr
  simp only [Option.some.injEq, Prod.mk.injEq] at hfr
  obtain ⟨hr, hst1, hfreed⟩ := hfr
  subst hst1
  obtain ⟨t2, hsp, hptr2, hlen2, hz⟩ := spawnN_ok f (clampTabSize minT maxT cap)
    { threads_table := some mem, threads_table_size := clampTabSize minT maxT cap,
      next_position := 0, curr_thread := 0, vtime := initialState.vtime } mem
    rfl hmemlen (Nat.le_of_eq (Nat.zero_add _))
  have hspawn' : spawnN f (clampTabSize minT maxT cap)
      { threads_table := some mem, threads_table_size := clampTabSize minT maxT cap,
        next_position := 0, curr_thread := 0, vtime := initialState.vtime } = some st2 := hspawn
  have hst2 : st2 = { threads_table := some t2,
                      threads_table_size := clampTabSize minT maxT cap,
                      next_position := 0 + clampTabSize minT maxT cap,
                      curr_thread := 0, vtime := initialState.vtime } :=
    Option.some.inj (hspawn'.symm.trans hsp)
  subst hst2
  have hclge := clampTabSize_ge minT maxT cap hminmax.2
  have hpos : 0 < t2.slots.length := by
    rw [hlen2, hmemlen]
    omega
  have hz2 : ∀ i, ∀ hi : i < t2.slots.length, (t2.slots[i]).vtime = 0 := by
    intro i hi
    refine hz (fun j hj hjlt => absurd hjlt (Nat.not_lt_zero j)) i hi ?_
    show i < 0 + clampTabSize minT maxT cap
    rw [hlen2, hmemlen] at hi
    omega
  have hv : initialState.vtime < ULONG_MOD := ULONG_MOD_pos
  have hsv : (t2.slots[0]).vtime < ULONG_MOD := by
    rw [hz2 0 hpos]
    exact ULONG_MOD_pos
  obtain ⟨st3, t3, hA, hB, hC, hD, hE, hF, hG, hH, hI, hJ⟩ := tickN_ok n
    { threads_table := some t2, threads_table_size := clampTabSize minT maxT cap,
      next_position := 0 + clampTabSize minT maxT cap, curr_thread := 0,
      vtime := initialState.vtime } t2 rfl hpos hv hsv
  have h0len3 : (0 : Nat) < t3.slots.length := by
    rw [hH]
    exact hpos
  have hcurr3 : (t3.slots[0]).vtime = (INTERVAL_MICRO * n) % ULONG_MOD := by
    rw [hI h0len3, hz2 0 hpos]
    rw [Nat.zero_add]
  have hothers : ∀ i, i ≠ 0 → ∀ hi' : i < t3.slots.length, (t3.slots[i]).vtime = 0 := by
    intro i hne hi'
    have hi : i < t2.slots.length := by omega
    rw [hJ i hne hi hi']
    exact hz2 i hi
  have hsum : vtimeSum t3.slots = (INTERVAL_MICRO * n) % ULONG_MOD := by
    rw [vtimeSum_single t3.slots 0 h0len3 (fun i hne hi => hothers i hne hi)]
    exact hcurr3
  refine ⟨st3, t3, hA, hB, ?_, ?_, hE, hD, hC, ?_, ?_⟩
  · rw [hF, hsum]
    show (0 + INTERVAL_MICRO * n) % ULONG_MOD = (INTERVAL_MICRO * n) % ULONG_MOD
    rw [Nat.zero_add]
  · rw [hF]
    show (0 + INTERVAL_MICRO * n) % ULONG_MOD = (INTERVAL_MICRO * n) % ULONG_MOD
    rw [Nat.zero_add]
  · intro hc3
    exact hcurr3
  · intro t2' ht2'
    have he : t2 = t2' := Option.some.inj ht2'
    subst he
    exact fun i hne hi hi' => hJ i hne hi hi'

/-- Witness for the amended C2 in the concrete scenario: capacity 2,
both slots spawned, three virtual-clock ticks (far below the wrap). -/
theorem vtick_accounting_witness :
    (∀ st : UTState, ∀ t, st.threads_table = some t →
      ∀ hc : st.curr_thread < t.slots.length,
      thread_signals_handler Signal.sigvtalrm true false st =
        some ({ st with vtime := (st.vtime + INTERVAL_MICRO) % ULONG_MOD, threads_table := some { t with slots := t.slots.set st.curr_thread { t.slots[st.curr_thread] with vtime := ((t.slots[st.curr_thread]).vtime + INTERVAL_MICRO) % ULONG_MOD } } }, [])) ∧
    (∃ st3 t3, tickN 3 stTwo = some st3 ∧ st3.threads_table = some t3 ∧
      st3.vtime = vtimeSum t3.slots ∧
      st3.vtime = (INTERVAL_MICRO * 3) % ULONG_MOD ∧
      st3.curr_thread = stTwo.curr_thread ∧
      st3.next_position = stTwo.next_position ∧
      st3.threads_table_size = stTwo.threads_table_size ∧
      (∀ hc3 : stTwo.curr_thread < t3.slots.length,
        (t3.slots[stTwo.curr_thread]).vtime = (INTERVAL_MICRO * 3) % ULONG_MOD) ∧
      (∀ t2, stTwo.threads_table = some t2 →
        ∀ i, i ≠ stTwo.curr_thread → ∀ hi : i < t2.slots.length,
          ∀ hi' : i < t3.slots.length, t3.slots[i] = t2.slots[i])) :=
  vtick_accounting 1 8 2 memG (fun i => (500 + i : Int)) 3 stInit2 stTwo 0 []
    (by decide) (by decide) (by decide) (by decide)

/-- C8 (defect demonstration): in the concrete scenario — capacity 2, one
thread spawned (table at 100, its stack at 500, so `allocatedPtrs =
[100, 500]`) — a termination notification cancels the alarm, skips the
NULL previous handler, and then frees `[500, 999, 100]`: the two
allocations are each freed exactly once, but `999`, the indeterminate
`malloc` residue in never-spawned slot 1's stack-pointer field, is passed
to `free` as well although it was never allocated, because
`release_memory` iterates up to `threads_table_size` instead of
`next_position`. -/
theorem sigint_frees_unallocated :
    ut_init 1 8 2 (some memG) initialState = some (0, stInit2, []) ∧
    ut_spawn_thread (some 500) true 10 42 stInit2 = some (0, stOne) ∧
    stOne.next_position = 1 ∧ stOne.threads_table_size = 2 ∧
    thread_signals_handler Signal.sigint true false stOne =
      some (stOne, [Eff.cancelAlarm, Eff.freeMem 500, Eff.freeMem 999, Eff.freeMem 100]) ∧
    [(500 : Int), 999, 100].count 500 = 1 ∧
    [(500 : Int), 999, 100].count 100 = 1 ∧
    (999 : Int) ∈ [(500 : Int), 999, 100] ∧
    (999 : Int) ∉ allocatedPtrs := by
  refine ⟨rfl, rfl, rfl, rfl, rfl, by decide, by decide, by decide, by decide⟩
